import Mathlib

/-!
Shallow embedding of the coverage-analysis code in
`src/analyzers/cobertura_parser.py` and `src/analyzers/coverage_analyzer.py`,
with theorems settling the frozen claims about it.

Python scalars are modelled with `Int` and `ℚ` (exact arithmetic in place of
IEEE floats; the claims only involve comparisons and small decimal values),
Python dicts with association lists, exceptions with `Option`/`Except`.
-/

namespace Sentry

/-! ### Character and string primitives

The core `String` functions do not reduce inside the kernel, so the string
operations this embedding needs are written over `String.data` (lists of
characters), with characters compared through their code points. -/

/-- ASCII lower-casing of one character (models `str.lower` on the ASCII
attribute values this code consumes). -/
def charLower (c : Char) : Char :=
  if 65 ≤ c.toNat ∧ c.toNat ≤ 90 then Char.ofNat (c.toNat + 32) else c

def isDigitChar (c : Char) : Bool := 48 ≤ c.toNat && c.toNat ≤ 57

/-- Python `str.isspace` characters (the ASCII ones). -/
def isSpaceChar (c : Char) : Bool :=
  c.toNat == 32 || c.toNat == 9 || c.toNat == 10 || c.toNat == 13
    || c.toNat == 11 || c.toNat == 12

def strToLower (s : String) : String := ⟨s.data.map charLower⟩

/-- Leading and trailing whitespace removed, as `int`/`float` allow. -/
def trimChars (cs : List Char) : List Char :=
  ((cs.dropWhile isSpaceChar).reverse.dropWhile isSpaceChar).reverse

/-- Python `s.startswith(pat)`. -/
def strStartsWith (s pat : String) : Bool := pat.data.isPrefixOf s.data

/-- Python `s.endswith(pat)`. -/
def strEndsWith (s pat : String) : Bool := pat.data.isSuffixOf s.data

/-- Python `pat in s` on strings: substring containment. -/
def strContains (s pat : String) : Bool :=
  (List.range (s.data.length + 1)).any (fun i => pat.data.isPrefixOf (s.data.drop i))

/-- The numeric value of a nonempty all-digit character list. -/
def digitsToNat (cs : List Char) : Nat :=
  cs.foldl (fun acc c => acc * 10 + (c.toNat - 48)) 0

def parseNatDigits (cs : List Char) : Option Nat :=
  if cs ≠ [] ∧ cs.all isDigitChar then some (digitsToNat cs) else none

/-!
`pyInt` and `pyFloat` model the builtins `int(str)` / `float(str)` on the
attribute strings this code consumes: optional surrounding whitespace, an
optional sign, and decimal digits (for `float`, an optional single decimal
point).  Scientific notation, `inf`/`nan` and underscore separators are not
modelled.  `none` models a raised `ValueError`. -/

/-- Python `int(s)` on plain decimal strings; `none` = `ValueError`. -/
def pyInt (s : String) : Option Int :=
  match trimChars s.data with
  | '-' :: rest => (parseNatDigits rest).map (fun n => -(n : Int))
  | '+' :: rest => (parseNatDigits rest).map (fun n => (n : Int))
  | t => (parseNatDigits t).map (fun n => (n : Int))

/-- Split a character list on `'.'` (the list of fields, like `str.split('.')`). -/
def splitOnDot : List Char → List (List Char)
  | [] => [[]]
  | c :: rest =>
    if c = '.' then [] :: splitOnDot rest
    else match splitOnDot rest with
      | [] => [[c]]
      | h :: t => (c :: h) :: t

/-- Unsigned decimal with optional single point: `"5"`, `"0.85"`, `"1."`, `".5"`. -/
def decimalToRat (t : List Char) : Option ℚ :=
  match splitOnDot t with
  | [a] => (parseNatDigits a).map (fun n => (n : ℚ))
  | [a, b] =>
    if a = [] && b = [] then none
    else if a = [] then (parseNatDigits b).map (fun n => (n : ℚ) / (10 : ℚ) ^ b.length)
    else if b = [] then (parseNatDigits a).map (fun n => (n : ℚ))
    else match parseNatDigits a, parseNatDigits b with
      | some x, some y => some ((x : ℚ) + (y : ℚ) / (10 : ℚ) ^ b.length)
      | _, _ => none
  | _ => none

/-- Python `float(s)` on plain decimal strings; `none` = `ValueError`. -/
def pyFloat (s : String) : Option ℚ :=
  match trimChars s.data with
  | '-' :: rest => (decimalToRat rest).map (fun q => -q)
  | '+' :: rest => decimalToRat rest
  | t => decimalToRat t

/-! ### XML element model (`xml.etree.ElementTree`) -/

/-- An XML element: tag, attributes, child elements, text. -/
structure XmlElem where
  tag : String
  attrs : List (String × String)
  children : List XmlElem
  text : Option String := none

/-- Models `elem.get(name)`: the attribute value, `none` when absent. -/
def XmlElem.attr (e : XmlElem) (name : String) : Option String :=
  (e.attrs.find? (fun p => p.1 == name)).map (fun p => p.2)

/-- Models `elem.find(tag)`: first direct child with the given tag. -/
def XmlElem.findChild (e : XmlElem) (t : String) : Option XmlElem :=
  e.children.find? (fun c => c.tag == t)

/-- Models `elem.findall(tag)`: all direct children with the given tag. -/
def XmlElem.findAll (e : XmlElem) (t : String) : List XmlElem :=
  e.children.filter (fun c => c.tag == t)

/-- Models `float(elem.get(name, 0))`: an absent attribute defaults to `0`
(no failure possible); a present one goes through `float`. -/
def getFloatAttr (e : XmlElem) (name : String) : Option ℚ :=
  match e.attr name with
  | none => some 0
  | some s => pyFloat s

/-- Models `int(elem.get(name, 0))`: an absent attribute defaults to `0`
(no failure possible); a present one goes through `int`. -/
def getIntAttr (e : XmlElem) (name : String) : Option Int :=
  match e.attr name with
  | none => some 0
  | some s => pyInt s

/-! ### Association-list dict -/

/-- Python dict assignment `d[k] = v`: overwrite in place, else append. -/
def dictInsert {α : Type} [BEq α] {β : Type} (k : α) (v : β) :
    List (α × β) → List (α × β)
  | [] => [(k, v)]
  | (k', v') :: rest =>
    if k' == k then (k, v) :: rest else (k', v') :: dictInsert k v rest

/-! ### `CoberturaParser._extract_lines_data` -/

/-- The per-line record stored in `line_details`. -/
structure LineInfo where
  hits : Int
  branch : Bool
  condition_coverage : String
deriving DecidableEq, Repr

/-- The accumulator/result of `_extract_lines_data`. -/
structure LinesData where
  missing_lines : List Int
  covered_lines : List Int
  partial_lines : List Int
  line_details : List (Int × LineInfo)
deriving DecidableEq, Repr

def emptyLinesData : LinesData :=
  { missing_lines := [], covered_lines := [], partial_lines := [], line_details := [] }

/-- The fallible attribute reads of one `<line>`: `int(get('number', 0))` and
`int(get('hits', 0))` in order; a `ValueError` (`none`) skips the element.
The `branch` and `condition-coverage` reads cannot fail. -/
def parseLineElem (e : XmlElem) : Option (Int × LineInfo) :=
  match getIntAttr e "number", getIntAttr e "hits" with
  | some n, some h =>
    some (n, { hits := h
               branch := strToLower ((e.attr "branch").getD "false") == "true"
               condition_coverage := (e.attr "condition-coverage").getD "" })
  | _, _ => none

/-- One iteration of the `for line_elem in lines_elem.findall('line')` loop:
record the line in `line_details`, then classify it into exactly one of the
three lists (`hits == 0` → missing; else branch with condition-coverage
present and not containing `"100%"` → partial; else covered). -/
def lineStep (acc : LinesData) (e : XmlElem) : LinesData :=
  match parseLineElem e with
  | none => acc
  | some (n, info) =>
    let acc := { acc with line_details := dictInsert n info acc.line_details }
    if info.hits = 0 then
      { acc with missing_lines := acc.missing_lines ++ [n] }
    else if info.branch && info.condition_coverage != ""
        && !(strContains info.condition_coverage "100%") then
      { acc with partial_lines := acc.partial_lines ++ [n] }
    else
      { acc with covered_lines := acc.covered_lines ++ [n] }

/-- Models `_extract_lines_data(class_elem)`. -/
def extractLinesData (class_elem : XmlElem) : LinesData :=
  match class_elem.findChild "lines" with
  | none => emptyLinesData
  | some lines_elem => (lines_elem.findAll "line").foldl lineStep emptyLinesData

/-! ### `CoberturaParser._extract_overall_coverage` -/

/-- The `coverage_data` dict of `_extract_overall_coverage`. -/
structure OverallCoverage where
  lines_valid : Int
  lines_covered : Int
  line_rate : ℚ
  branches_valid : Int
  branches_covered : Int
  branch_rate : ℚ
  percent_covered : ℚ
deriving DecidableEq, Repr

/-- The initial `coverage_data` values, kept when the `try` block fails. -/
def defaultOverall : OverallCoverage :=
  { lines_valid := 0, lines_covered := 0, line_rate := 0,
    branches_valid := 0, branches_covered := 0, branch_rate := 0,
    percent_covered := 0 }

/-- Models `_extract_overall_coverage(root)`: the six attribute parses sit in one
`try` block and `coverage_data.update` runs only after all six succeed, so a
`ValueError` from any one of them leaves every field at its default. -/
def extractOverallCoverage (root : XmlElem) : OverallCoverage :=
  match getFloatAttr root "line-rate", getFloatAttr root "branch-rate",
      getIntAttr root "lines-covered", getIntAttr root "lines-valid",
      getIntAttr root "branches-covered", getIntAttr root "branches-valid" with
  | some lr, some br, some lc, some lv, some bc, some bv =>
    { lines_valid := lv, lines_covered := lc, line_rate := lr,
      branches_valid := bv, branches_covered := bc, branch_rate := br,
      percent_covered := lr * 100 }
  | _, _, _, _, _, _ => defaultOverall

/-! ### Package / class / method extraction -/

/-- An entry of `_extract_methods_from_class`. -/
structure MethodCoverage where
  signature : String
  line_rate : ℚ
  branch_rate : ℚ
  percent_covered : ℚ

/-- Models `_extract_methods_from_class(class_elem)`: a rate parse failure skips
that method (`continue`). -/
def extractMethodsFromClass (class_elem : XmlElem) : List (String × MethodCoverage) :=
  match class_elem.findChild "methods" with
  | none => []
  | some methods_elem =>
    (methods_elem.findAll "method").foldl (fun acc m =>
      match getFloatAttr m "line-rate", getFloatAttr m "branch-rate" with
      | some lr, some br =>
        dictInsert ((m.attr "name").getD "")
          { signature := (m.attr "signature").getD ""
            line_rate := lr, branch_rate := br, percent_covered := lr * 100 } acc
      | _, _ => acc) []

/-- An entry of `_extract_classes_from_package`. -/
structure ClassCoverage where
  filename : String
  line_rate : ℚ
  branch_rate : ℚ
  percent_covered : ℚ
  methods : List (String × MethodCoverage)

/-- Models `_extract_classes_from_package(package_elem)`. -/
def extractClassesFromPackage (package_elem : XmlElem) : List (String × ClassCoverage) :=
  match package_elem.findChild "classes" with
  | none => []
  | some classes_elem =>
    (classes_elem.findAll "class").foldl (fun acc c =>
      match getFloatAttr c "line-rate", getFloatAttr c "branch-rate" with
      | some lr, some br =>
        dictInsert ((c.attr "name").getD "")
          { filename := (c.attr "filename").getD ""
            line_rate := lr, branch_rate := br, percent_covered := lr * 100
            methods := extractMethodsFromClass c } acc
      | _, _ => acc) []

/-- An entry of `_extract_packages_coverage`. -/
structure PackageCoverage where
  line_rate : ℚ
  branch_rate : ℚ
  percent_covered : ℚ
  classes : List (String × ClassCoverage)

/-- Models `_extract_packages_coverage(root)`. -/
def extractPackagesCoverage (root : XmlElem) : List (String × PackageCoverage) :=
  match root.findChild "packages" with
  | none => []
  | some packages_elem =>
    (packages_elem.findAll "package").foldl (fun acc p =>
      match getFloatAttr p "line-rate", getFloatAttr p "branch-rate" with
      | some lr, some br =>
        dictInsert ((p.attr "name").getD "")
          { line_rate := lr, branch_rate := br, percent_covered := lr * 100
            classes := extractClassesFromPackage p } acc
      | _, _ => acc) []

/-! ### `CoberturaParser._extract_files_coverage` -/

/-- The per-file summary dict. -/
structure FileSummary where
  percent_covered : ℚ
  line_rate : ℚ
  branch_rate : ℚ
deriving DecidableEq, Repr

/-- A `files[filename]` entry. -/
structure FileCoverage where
  summary : FileSummary
  missing_lines : List Int
  covered_lines : List Int
  partial_lines : List Int
  line_details : List (Int × LineInfo)
deriving DecidableEq, Repr

/-- Models `_extract_files_coverage(root)`: a class without a filename, or with an
unparseable rate, is skipped (`continue`). -/
def extractFilesCoverage (root : XmlElem) : List (String × FileCoverage) :=
  match root.findChild "packages" with
  | none => []
  | some packages_elem =>
    (packages_elem.findAll "package").foldl (fun acc p =>
      match p.findChild "classes" with
      | none => acc
      | some classes_elem =>
        (classes_elem.findAll "class").foldl (fun acc c =>
          let filename := (c.attr "filename").getD ""
          if filename = "" then acc
          else
            match getFloatAttr c "line-rate", getFloatAttr c "branch-rate" with
            | some lr, some br =>
              let ld := extractLinesData c
              dictInsert filename
                { summary := { percent_covered := lr * 100, line_rate := lr, branch_rate := br }
                  missing_lines := ld.missing_lines
                  covered_lines := ld.covered_lines
                  partial_lines := ld.partial_lines
                  line_details := ld.line_details } acc
            | _, _ => acc) acc) []

/-- Models `_extract_source_paths(root)`. -/
def extractSourcePaths (root : XmlElem) : List String :=
  match root.findChild "sources" with
  | none => []
  | some sources_elem =>
    (sources_elem.findAll "source").foldl (fun acc s =>
      match s.text with
      | some t => if t = "" then acc else acc ++ [⟨trimChars t.data⟩]
      | none => acc) []

/-! ### `CoberturaParser.parse_coverage_file` -/

/-- The outcome of reading and XML-parsing the input path, before any
Cobertura-specific processing: the file may be missing, the markup
unparseable (any exception from `safe_parse`), or a well-formed document
with a root element. -/
inductive ParseInput where
  | missing
  | malformed
  | doc (root : XmlElem)

/-- The dictionary `parse_coverage_file` returns on success. -/
structure CoberturaData where
  totals : OverallCoverage
  packages : List (String × PackageCoverage)
  files : List (String × FileCoverage)
  timestamp : String
  version : String
  source_paths : List String

/-- Models `parse_coverage_file`: a missing file, an XML parse error, or a root tag
other than `coverage` each yields the empty dict (`none`); every helper below
the root check catches its own per-element failures, so the function is total
and the document branch always produces a result. -/
def parseCoverageFile (input : ParseInput) : Option CoberturaData :=
  match input with
  | .missing => none
  | .malformed => none
  | .doc root =>
    if root.tag != "coverage" then none
    else some
      { totals := extractOverallCoverage root
        packages := extractPackagesCoverage root
        files := extractFilesCoverage root
        timestamp := (root.attr "timestamp").getD ""
        version := (root.attr "version").getD ""
        source_paths := extractSourcePaths root }

/-! ### `CoverageAnalyzer._find_low_coverage_areas` -/

/-- The fields of a per-file dict that this method reads: the top-level
`percent_covered` key (JaCoCo-style), the nested `summary.percent_covered`
key (Cobertura-style), and `missing_lines`. -/
structure FileEntry where
  percent_covered : Option ℚ
  summary_percent_covered : Option ℚ
  missing_lines : List Int
deriving DecidableEq, Repr

/-- A value of the files dict: a dict entry, or any non-dict value
(`isinstance(file_data, dict)` fails). -/
inductive JEntry where
  | dict (f : FileEntry)
  | nondict
deriving DecidableEq, Repr

/-- Models `file_data.get("percent_covered", file_data.get("summary", {}).get("percent_covered", 0))`. -/
def fileCov (f : FileEntry) : ℚ :=
  f.percent_covered.getD (f.summary_percent_covered.getD 0)

/-- One element of `low_coverage_areas`. -/
structure LowCoverageArea where
  file : String
  current_coverage : ℚ
  missing_lines : List Int
  priority : String
deriving DecidableEq, Repr

/-- The entry appended for a below-threshold file: priority is `high` below
half the threshold (`threshold * 0.5`), `medium` otherwise. -/
def mkArea (threshold : ℚ) (file_path : String) (f : FileEntry) : LowCoverageArea :=
  { file := file_path
    current_coverage := fileCov f
    missing_lines := f.missing_lines
    priority := if fileCov f < threshold * (1/2) then "high" else "medium" }

/-- The `for file_path, file_data in files.items()` loop.  A non-dict value is
scored `0`; when that is below the threshold the subsequent
`file_data.get("missing_lines", [])` raises (`AttributeError`), modelled as
`Except.error`; otherwise the value contributes nothing. -/
def collectLow (threshold : ℚ) : List (String × JEntry) → Except Unit (List LowCoverageArea)
  | [] => .ok []
  | (k, .dict f) :: rest =>
    if fileCov f < threshold then
      (collectLow threshold rest).map (fun l => mkArea threshold k f :: l)
    else collectLow threshold rest
  | (_, .nondict) :: rest =>
    if (0 : ℚ) < threshold then .error () else collectLow threshold rest

/-- The comparison realised by
`sort(key=lambda x: (x["priority"] == "high", -x["current_coverage"]), reverse=True)`:
`x` may precede `y` when its key tuple is lexicographically ≥ `y`'s. -/
def areaLe (x y : LowCoverageArea) : Bool :=
  let hx := x.priority == "high"
  let hy := y.priority == "high"
  (hx && !hy) || ((hx == hy) && decide (x.current_coverage ≤ y.current_coverage))

/-- Models `_find_low_coverage_areas(coverage_report, threshold)` applied to the
files dict it selects; Python's stable descending sort is `mergeSort` with
`areaLe`. -/
def findLowCoverageAreas (files : List (String × JEntry)) (threshold : ℚ) :
    Except Unit (List LowCoverageArea) :=
  (collectLow threshold files).map (fun l => l.mergeSort areaLe)

/-! ### `CoverageAnalyzer.analyze_coverage_with_path` / `analyze_coverage`

Both methods share their result-building tail (`coverage_analyzer.py`
lines 117–158 and 191–241); `analyzeCoverageWithPath` models that shared
logic, taking the already-parsed report. -/

/-- The keys of a parsed coverage report that the result-building tail reads.
`totals_percent_covered = some q` models `"totals" in report` with
`report["totals"]["percent_covered"] = q` present. -/
structure ParsedReport where
  overall_coverage : Option ℚ
  totals_percent_covered : Option ℚ
  files : Option (List (String × JEntry))
  file_coverage : Option (List (String × JEntry))
  source_format : Option String

/-- Models `coverage_report.get("files", coverage_report.get("file_coverage", {}))`
as read by `_find_low_coverage_areas`. -/
def reportFiles (r : ParsedReport) : List (String × JEntry) :=
  r.files.getD (r.file_coverage.getD [])

/-- Models `fix_path` inside `abs_file_dict`; `abspath` abstracts `os.path.abspath`. -/
def fixPath (abspath : String → String) (k : String) : String :=
  if strStartsWith k "/" then k
  else if strStartsWith k "src/" then abspath k
  else abspath ("src/" ++ k)

/-- Models `abs_file_dict(d)`: a dict comprehension re-keyed by `fix_path`. -/
def absFileDict (abspath : String → String) (d : List (String × JEntry)) :
    List (String × JEntry) :=
  d.foldl (fun acc kv => dictInsert (fixPath abspath kv.1) kv.2 acc) []

/-- The two dicts the method can return: the success dict, or the
`except`-branch dict (overall 0, empty files, `meets_threshold: False`). -/
inductive AnalysisResult where
  | ok (overall_coverage : ℚ) (file_coverage : List (String × JEntry))
      (low_coverage_areas : List LowCoverageArea) (threshold : ℚ)
      (meets_threshold : Bool) (source_format : String)
  | failed
deriving DecidableEq, Repr

/-- The result-building tail of `analyze_coverage_with_path` (and of
`analyze_coverage`): overall coverage from `totals.percent_covered` when
present, else `overall_coverage` (default 0);
`meets_threshold = overall_coverage >= threshold`; an exception inside the
`try` (only `_find_low_coverage_areas` can raise here) takes the `except`
branch. -/
def analyzeCoverageWithPath (abspath : String → String) (report : ParsedReport)
    (threshold : ℚ) : AnalysisResult :=
  match findLowCoverageAreas (reportFiles report) threshold with
  | .error _ => .failed
  | .ok low =>
    let overall : ℚ :=
      match report.totals_percent_covered with
      | some q => q
      | none => report.overall_coverage.getD 0
    let fc0 := report.file_coverage.getD []
    let fc1 := if fc0 = [] then report.files.getD [] else fc0
    .ok overall (absFileDict abspath fc1) low threshold
      (decide (overall ≥ threshold)) (report.source_format.getD "pytest")

/-! ### `CoverageAnalyzer._parse_jacoco_coverage` -/

/-- Models `raw_pkg.replace('.', '/').strip('/') if raw_pkg else ''` applied to the
already-stripped `package.get('name', '').strip()`. -/
def pkgNormalize (raw : String) : String :=
  if raw = "" then ""
  else
    let slashed := raw.data.map (fun c => if c = '.' then '/' else c)
    ⟨((slashed.dropWhile (fun c => c = '/')).reverse.dropWhile (fun c => c = '/')).reverse⟩

/-- The candidate relative paths, in descending specificity; the
package-qualified ones exist only when the package path is nonempty. -/
def jacocoCandidates (pkg_path filename : String) : List String :=
  (if pkg_path != "" then
    [pkg_path ++ "/" ++ filename,
     "src/main/java/" ++ pkg_path ++ "/" ++ filename,
     "src/" ++ pkg_path ++ "/" ++ filename]
   else [])
  ++ ["src/main/java/" ++ filename, "src/" ++ filename, filename]

/-- The `for c in candidates: if os.path.exists(c): chosen = c; break` loop
followed by `if not chosen: chosen = candidates[0]`; `diskExists` abstracts
`os.path.exists`.  (`not chosen` is also true of an empty-string match, hence
the inner test.) -/
def chooseFileKey (diskExists : String → Bool) (pkg_path filename : String) : String :=
  let candidates := jacocoCandidates pkg_path filename
  match candidates.find? diskExists with
  | some c => if c = "" then candidates.headD "" else c
  | none => candidates.headD ""

/-- A `file_coverage[chosen]` entry of the JaCoCo parser. -/
structure JacocoFileEntry where
  missed : Int
  covered : Int
  total : Int
  percent_covered : ℚ
  missing_lines : List Int
  covered_lines : List Int
deriving DecidableEq, Repr

/-- The `<line>` loop of one `<sourcefile>`: `int(line.get('nr'))` (no
default: an absent attribute raises `TypeError`, modelled with the absent
case failing) and `int(line.get('ci', 0))`; `hits > 0` counts as covered. -/
def jacocoLineCounts (sf : XmlElem) :
    Except Unit (Int × Int × List Int × List Int) :=
  (sf.findAll "line").foldlM (fun acc line => do
    let (missed, covered, ml, cl) := acc
    let nr ← match line.attr "nr" with
      | none => Except.error ()
      | some s => match pyInt s with
        | none => Except.error ()
        | some n => Except.ok n
    let ci ← match getIntAttr line "ci" with
      | none => Except.error ()
      | some n => Except.ok n
    if ci > 0 then pure (missed, covered + 1, ml, cl ++ [nr])
    else pure (missed + 1, covered, ml ++ [nr], cl))
    ((0 : Int), (0 : Int), ([] : List Int), ([] : List Int))

/-- The `<counter>` fallback: when no `<line>` was counted, sum the `missed`
and `covered` attributes of `LINE` counters (`int(counter.get('missed'))`
with no default — an absent attribute raises). -/
def jacocoCounterFallback (sf : XmlElem) : Except Unit (Int × Int) :=
  (sf.findAll "counter").foldlM (fun acc counter => do
    let (missed, covered) := acc
    if ((counter.attr "type").getD "") == "LINE" then
      let m ← match counter.attr "missed" with
        | none => Except.error ()
        | some s => match pyInt s with
          | none => Except.error ()
          | some n => Except.ok n
      let c ← match counter.attr "covered" with
        | none => Except.error ()
        | some s => match pyInt s with
          | none => Except.error ()
          | some n => Except.ok n
      pure (missed + m, covered + c)
    else pure (missed, covered))
    ((0 : Int), (0 : Int))

/-- The finished per-sourcefile entry, given the final missed/covered counts
and the line lists, with the guarded per-file percentage. -/
def jacocoEntryOf (missed covered : Int) (ml cl : List Int) : JacocoFileEntry :=
  let total := missed + covered
  { missed := missed, covered := covered, total := total
    percent_covered := if total > 0 then (covered : ℚ) / (total : ℚ) * 100 else 0
    missing_lines := ml, covered_lines := cl }

/-- The per-sourcefile statistics (lines counted, counter fallback when both
counts are zero, and the guarded per-file percentage). -/
def jacocoSourcefileStats (sf : XmlElem) : Except Unit JacocoFileEntry :=
  match jacocoLineCounts sf with
  | .error e => .error e
  | .ok (missed0, covered0, ml, cl) =>
    if missed0 = 0 && covered0 = 0 then
      match jacocoCounterFallback sf with
      | .error e => .error e
      | .ok (m, c) => .ok (jacocoEntryOf (missed0 + m) (covered0 + c) ml cl)
    else .ok (jacocoEntryOf missed0 covered0 ml cl)

/-- The success dict of `_parse_jacoco_coverage`. -/
structure JacocoReport where
  overall_coverage : ℚ
  file_coverage : List (String × JacocoFileEntry)
  total_missed : Int
  total_covered : Int
deriving DecidableEq, Repr

/-- The two dicts `_parse_jacoco_coverage` can return: parsed data, or the
`except`-branch error dict (overall 0, empty file coverage). -/
inductive JacocoResult where
  | ok (r : JacocoReport)
  | failed
deriving DecidableEq, Repr

/-- Models `_parse_jacoco_coverage(report_path)` on a parsed document: walk
`package`/`sourcefile` elements, key each entry by the resolved candidate
path, accumulate totals, and guard the overall percentage; any raised
`ValueError`/`TypeError` lands in the `except` branch. -/
def parseJacocoDoc (diskExists : String → Bool) (root : XmlElem) : JacocoResult :=
  let step := (root.findAll "package").foldlM
    (fun (acc : List (String × JacocoFileEntry) × Int × Int) (package : XmlElem) => do
    let (fc, total_missed, total_covered) := acc
    let raw_pkg : String := ⟨trimChars ((package.attr "name").getD "").data⟩
    let pkg_path := pkgNormalize raw_pkg
    (package.findAll "sourcefile").foldlM
      (fun (acc : List (String × JacocoFileEntry) × Int × Int) (sf : XmlElem) => do
      let (fc, total_missed, total_covered) := acc
      let filename := (sf.attr "name").getD "None"
      let entry ← jacocoSourcefileStats sf
      let chosen := chooseFileKey diskExists pkg_path filename
      pure (dictInsert chosen entry fc,
            total_missed + entry.missed, total_covered + entry.covered))
      (fc, total_missed, total_covered))
    (([] : List (String × JacocoFileEntry)), (0 : Int), (0 : Int))
  match step with
  | .error _ => .failed
  | .ok (fc, total_missed, total_covered) =>
    let overall_total := total_missed + total_covered
    .ok { overall_coverage :=
            if overall_total > 0 then (total_covered : ℚ) / (overall_total : ℚ) * 100 else 0
          file_coverage := fc
          total_missed := total_missed
          total_covered := total_covered }

/-! ### `CoverageAnalyzer._parse_json_coverage` / `_convert_istanbul_format` -/

/-- A JSON value as `json.load` produces it. -/
inductive JVal where
  | null
  | jbool (b : Bool)
  | num (q : ℚ)
  | str (s : String)
  | arr (xs : List JVal)
  | obj (fields : List (String × JVal))

/-- Models `d.get(k)` on an object's fields. -/
def jLookup (fields : List (String × JVal)) (k : String) : Option JVal :=
  (fields.find? (fun kv => kv.1 == k)).map (fun kv => kv.2)

/-- Models `k in d`. -/
def hasKey (fields : List (String × JVal)) (k : String) : Bool :=
  (jLookup fields k).isSome

/-- Python truthiness of a JSON value. -/
def jTruthy : JVal → Bool
  | .null => false
  | .jbool b => b
  | .num q => decide (q ≠ 0)
  | .str s => s != ""
  | .arr xs => !xs.isEmpty
  | .obj fs => !fs.isEmpty

/-- Python `hit_count > 0`: defined for numbers and booleans, a `TypeError`
otherwise. -/
def pyGtZero : JVal → Except Unit Bool
  | .num q => .ok (decide (0 < q))
  | .jbool b => .ok b
  | _ => .error ()

/-- Models `statement_map[stmt_id].get('start', {}).get('line')`: the mapped value
and a present `start` must be dicts (otherwise `AttributeError`); an absent
`start` or `line` gives `none`. -/
def stmtStartLine (m : JVal) : Except Unit (Option JVal) :=
  match m with
  | .obj mf =>
    match (jLookup mf "start").getD (.obj []) with
    | .obj sf => .ok (jLookup sf "line")
    | _ => .error ()
  | _ => .error ()

/-- One iteration of the `for stmt_id, hit_count in statements.items()` loop:
an id absent from `statement_map`, or whose start line is absent or falsy, is
skipped; otherwise `hit_count > 0` appends the line to the covered
(else missing) list. -/
def istanbulStmtStep (smFields : List (String × JVal))
    (acc : List JVal × List JVal) (kv : String × JVal) :
    Except Unit (List JVal × List JVal) :=
  match jLookup smFields kv.1 with
  | none => .ok acc
  | some m =>
    match stmtStartLine m with
    | .error e => .error e
    | .ok lineOpt =>
      match lineOpt with
      | none => .ok acc
      | some line_num =>
        if jTruthy line_num then
          match pyGtZero kv.2 with
          | .error e => .error e
          | .ok hit =>
            if hit then .ok (acc.1, acc.2 ++ [line_num])
            else .ok (acc.1 ++ [line_num], acc.2)
        else .ok acc

/-- The statement loop of one Istanbul file: returns
(missing lines, covered lines) in iteration order.  A non-dict `s` value
(`.items()`) or non-dict `statementMap` is modelled as a failure. -/
def istanbulFileLines (fields : List (String × JVal)) :
    Except Unit (List JVal × List JVal) :=
  match (jLookup fields "s").getD (.obj []) with
  | .obj sEntries =>
    match (jLookup fields "statementMap").getD (.obj []) with
    | .obj smFields =>
      sEntries.foldlM (istanbulStmtStep smFields) (([] : List JVal), ([] : List JVal))
    | _ => .error ()
  | _ => .error ()

/-- A `file_coverage` entry of the Istanbul conversion. -/
structure IstFileEntry where
  summary_percent_covered : ℚ
  missing_lines : List JVal
  covered_lines : List JVal

/-- The dict `_convert_istanbul_format` returns. -/
structure IstReport where
  overall_coverage : ℚ
  file_coverage : List (String × IstFileEntry)

/-- The file loop of `_convert_istanbul_format`: non-dict values are skipped
(`continue`); a file with at least one classified statement gets an entry
with the guarded percentage; `total_lines`/`covered_lines` accumulate over
classified statements of all files. -/
def convertIstanbulCore (entries : List (String × JVal)) :
    Except Unit (Nat × Nat × List (String × IstFileEntry)) :=
  entries.foldlM (fun (acc : Nat × Nat × List (String × IstFileEntry)) kv => do
    let (total_lines, covered_lines, fc) := acc
    match kv.2 with
    | .obj fields => do
      let (ml, cl) ← istanbulFileLines fields
      let fc' :=
        if !ml.isEmpty || !cl.isEmpty then
          let file_total := ml.length + cl.length
          dictInsert kv.1
            { summary_percent_covered :=
                if file_total > 0 then (cl.length : ℚ) / (file_total : ℚ) * 100 else 0
              missing_lines := ml, covered_lines := cl } fc
        else fc
      pure (total_lines + ml.length + cl.length, covered_lines + cl.length, fc')
    | _ => pure (total_lines, covered_lines, fc))
    ((0 : Nat), (0 : Nat), ([] : List (String × IstFileEntry)))

/-- Models `_convert_istanbul_format(istanbul_data)` with the guarded overall
percentage. -/
def convertIstanbul (entries : List (String × JVal)) : Except Unit IstReport :=
  (convertIstanbulCore entries).map (fun r =>
    let (total_lines, covered_lines, fc) := r
    { overall_coverage :=
        if total_lines > 0 then (covered_lines : ℚ) / (total_lines : ℚ) * 100 else 0
      file_coverage := fc })

/-- The three dicts `_parse_json_coverage` can return: the pytest-style
aggregate dict, the Istanbul conversion, or the empty dict. -/
inductive JsonResult where
  | empty
  | pytest (overall_coverage : JVal) (files : JVal)
  | istanbul (r : IstReport)

/-- Models `_parse_json_coverage` on the loaded JSON value: an object with both
`totals` and `files` keys is aggregate-style (a non-dict `totals` raises and
is caught, giving empty); otherwise an object any one of whose keys ends in
`.js`/`.ts` goes through the Istanbul conversion (a raising conversion is
caught, giving empty); anything else is empty.  File-read and JSON-decode
failures take the same `except` path to empty and are not modelled
separately. -/
def parseJsonCoverage (data : JVal) : JsonResult :=
  match data with
  | .obj fields =>
    if hasKey fields "totals" && hasKey fields "files" then
      match jLookup fields "totals" with
      | some (.obj tfields) =>
        .pytest ((jLookup tfields "percent_covered").getD (.num 0))
          ((jLookup fields "files").getD .null)
      | _ => .empty
    else if fields.any (fun kv => strEndsWith kv.1 ".js" || strEndsWith kv.1 ".ts") then
      match convertIstanbul fields with
      | .ok r => .istanbul r
      | .error _ => .empty
    else .empty
  | _ => .empty

/-! ### Derived views used by the theorems -/

/-- The `<line>` elements `_extract_lines_data` iterates over. -/
def linesChildren (class_elem : XmlElem) : List XmlElem :=
  match class_elem.findChild "lines" with
  | none => []
  | some lines_elem => lines_elem.findAll "line"

/-- The successfully parsed `(number, info)` pairs, in order. -/
def parsedLines (es : List XmlElem) : List (Int × LineInfo) :=
  es.filterMap parseLineElem

/-- The classification index of a parsed line: `0` missing, `1` partial,
`2` covered, with the guards exactly as `lineStep` tests them. -/
def lineCls (i : LineInfo) : Nat :=
  if i.hits = 0 then 0
  else if i.branch && i.condition_coverage != ""
      && !(strContains i.condition_coverage "100%") then 1
  else 2

/-- Models `dictInsert` folded over parsed lines, the shape `line_details` takes. -/
def detailsFold (d : List (Int × LineInfo)) (ps : List (Int × LineInfo)) :
    List (Int × LineInfo) :=
  ps.foldl (fun d p => dictInsert p.1 p.2 d) d

/-- The entries `_find_low_coverage_areas` emits before sorting, as a
filter-map: one area per dict-valued file strictly below the threshold. -/
def lowSelect (threshold : ℚ) (files : List (String × JEntry)) : List LowCoverageArea :=
  files.filterMap (fun kv =>
    match kv.2 with
    | .dict f => if fileCov f < threshold then some (mkArea threshold kv.1 f) else none
    | .nondict => none)

deriving instance DecidableEq for Except

/-! ### Spec-side Istanbul classifier

The next three definitions follow the words of the (amended) specification
of the statement-classification rule — not the code — so that the loop in
`istanbulFileLines` can be proved to refine them. -/

/-- Spec wording: the hit count is positive (a number > 0, or a true bool). -/
def specHitPos : JVal → Bool
  | .num q => decide (0 < q)
  | .jbool b => b
  | _ => false

/-- Spec wording: the start line recorded for a mapped statement, when the
map entry carries one. -/
def specStartLine (m : JVal) : Option JVal :=
  match m with
  | .obj mf =>
    match (jLookup mf "start").getD (.obj []) with
    | .obj sf => jLookup sf "line"
    | _ => none
  | _ => none

/-- Spec wording: whether one statement entry of the `s` map lands in the
covered (`wantCovered = true`) or missing (`wantCovered = false`) list: it
must be present in `statementMap` with a present, truthy start line, and its
hit count's positivity must match `wantCovered`. -/
def specClassify (smFields : List (String × JVal)) (wantCovered : Bool)
    (kv : String × JVal) : Option JVal :=
  match jLookup smFields kv.1 with
  | none => none
  | some m =>
    match specStartLine m with
    | none => none
    | some line =>
      if jTruthy line && (specHitPos kv.2 == wantCovered) then some line else none

/-- Spec wording: the `(missing, covered)` line lists of one file — each
statement id of the `s` map that is present in `statementMap` and whose
start line is present and truthy, classified covered when its hit count is
positive and missing otherwise. -/
def istanbulSpecClass (sEntries smFields : List (String × JVal)) :
    List JVal × List JVal :=
  (sEntries.filterMap (specClassify smFields false),
   sEntries.filterMap (specClassify smFields true))

/-! ## Theorems -/

theorem lineStep_parse_none {acc : LinesData} {e : XmlElem}
    (h : parseLineElem e = none) : lineStep acc e = acc := by
  unfold lineStep; rw [h]

theorem lineStep_cls_missing {acc : LinesData} {e : XmlElem} {n : Int} {i : LineInfo}
    (h : parseLineElem e = some (n, i)) (h0 : i.hits = 0) :
    lineStep acc e =
      { acc with line_details := dictInsert n i acc.line_details
                 missing_lines := acc.missing_lines ++ [n] } := by
  unfold lineStep; rw [h]; simp [h0]

theorem lineStep_cls_partialLines {acc : LinesData} {e : XmlElem} {n : Int} {i : LineInfo}
    (h : parseLineElem e = some (n, i)) (h0 : ¬ i.hits = 0)
    (h1 : (i.branch && i.condition_coverage != ""
      && !(strContains i.condition_coverage "100%")) = true) :
    lineStep acc e =
      { acc with line_details := dictInsert n i acc.line_details
                 partial_lines := acc.partial_lines ++ [n] } := by
  unfold lineStep; rw [h]; simp [h0, h1]

theorem lineStep_cls_covered {acc : LinesData} {e : XmlElem} {n : Int} {i : LineInfo}
    (h : parseLineElem e = some (n, i)) (h0 : ¬ i.hits = 0)
    (h1 : (i.branch && i.condition_coverage != ""
      && !(strContains i.condition_coverage "100%")) = false) :
    lineStep acc e =
      { acc with line_details := dictInsert n i acc.line_details
                 covered_lines := acc.covered_lines ++ [n] } := by
  unfold lineStep; rw [h]; simp [h0, h1]

theorem lineCls_missing_iff {i : LineInfo} : lineCls i = 0 ↔ i.hits = 0 := by
  unfold lineCls; split_ifs <;> simp_all

theorem lineCls_lt_three (i : LineInfo) : lineCls i < 3 := by
  unfold lineCls; split_ifs <;> omega

/-- The whole `_extract_lines_data` loop at once: each list is the projection
of the correspondingly classified parsed lines, and `line_details` is the
dict fold over them. -/
theorem foldl_lineStep_spec (es : List XmlElem) (acc : LinesData) :
    es.foldl lineStep acc =
      { missing_lines := acc.missing_lines
          ++ ((parsedLines es).filter (fun p => lineCls p.2 == 0)).map (fun p => p.1)
        covered_lines := acc.covered_lines
          ++ ((parsedLines es).filter (fun p => lineCls p.2 == 2)).map (fun p => p.1)
        partial_lines := acc.partial_lines
          ++ ((parsedLines es).filter (fun p => lineCls p.2 == 1)).map (fun p => p.1)
        line_details := detailsFold acc.line_details (parsedLines es) } := by
  induction es generalizing acc with
  | nil => simp [parsedLines, detailsFold]
  | cons e es ih =>
    rw [List.foldl_cons]
    cases h : parseLineElem e with
    | none =>
      rw [lineStep_parse_none h, ih]
      simp [parsedLines, List.filterMap_cons, h]
    | some p =>
      obtain ⟨n, i⟩ := p
      have hP : parsedLines (e :: es) = (n, i) :: parsedLines es := by
        simp [parsedLines, List.filterMap_cons, h]
      by_cases h0 : i.hits = 0
      · rw [lineStep_cls_missing h h0, ih]
        have hc : lineCls i = 0 := lineCls_missing_iff.mpr h0
        simp [hP, List.filter_cons, hc, detailsFold, List.append_assoc]
      · by_cases h1 : (i.branch && i.condition_coverage != ""
          && !(strContains i.condition_coverage "100%")) = true
        · rw [lineStep_cls_partialLines h h0 h1, ih]
          have hc : lineCls i = 1 := by unfold lineCls; simp [h0, h1]
          simp [hP, List.filter_cons, hc, detailsFold, List.append_assoc]
        · rw [lineStep_cls_covered h h0 (by simpa using h1), ih]
          have hc : lineCls i = 2 := by
            unfold lineCls; simp [h0]
            intro hb hcc
            have := (Bool.not_eq_true _).mp h1
            simp [hb, hcc] at this
            simpa using this
          simp [hP, List.filter_cons, hc, detailsFold, List.append_assoc]

/-- The three classification filters partition the parsed lines. -/
theorem filter_cls_perm (l : List (Int × LineInfo)) :
    List.Perm
      (l.filter (fun p => lineCls p.2 == 0) ++ l.filter (fun p => lineCls p.2 == 2)
        ++ l.filter (fun p => lineCls p.2 == 1)) l := by
  induction l with
  | nil => simp
  | cons a l ih =>
    have h3 := lineCls_lt_three a.2
    rw [List.append_assoc] at ih ⊢
    interval_cases h : lineCls a.2 <;> simp only [List.filter_cons, h] <;> norm_num
    · exact ih
    · exact ((List.Perm.append_left _ List.perm_middle).trans List.perm_middle).trans
        (List.Perm.cons a ih)
    · exact List.Perm.trans List.perm_middle (List.Perm.cons a ih)

/-- Inserting a fresh key appends it. -/
theorem dictInsert_fresh {β : Type} {k : Int} (v : β) {d : List (Int × β)}
    (h : k ∉ d.map (fun p => p.1)) : dictInsert k v d = d ++ [(k, v)] := by
  induction d with
  | nil => rfl
  | cons a d ih =>
    simp only [List.map_cons, List.mem_cons] at h
    push_neg at h
    unfold dictInsert
    rw [if_neg (by simpa using Ne.symm h.1)]
    rw [ih h.2, List.cons_append]

/-- Folding fresh, pairwise-distinct keys into a dict appends them in order. -/
theorem detailsFold_fresh {d : List (Int × LineInfo)} {ps : List (Int × LineInfo)}
    (hfresh : ∀ k ∈ ps.map (fun p => p.1), k ∉ d.map (fun p => p.1))
    (hnd : (ps.map (fun p => p.1)).Nodup) :
    detailsFold d ps = d ++ ps := by
  induction ps generalizing d with
  | nil => simp [detailsFold]
  | cons a ps ih =>
    simp only [List.map_cons, List.nodup_cons] at hnd
    have ha : a.1 ∉ d.map (fun p => p.1) := hfresh a.1 (by simp)
    unfold detailsFold
    rw [List.foldl_cons]
    have : dictInsert a.1 a.2 d = d ++ [(a.1, a.2)] := dictInsert_fresh a.2 ha
    rw [this]
    have := ih (d := d ++ [(a.1, a.2)]) (by
      intro k hk
      simp only [List.map_append, List.mem_append, List.map_cons, List.map_nil,
        List.mem_singleton] at *
      push_neg
      refine ⟨fun hkd => hfresh k (by simp [hk]) hkd, ?_⟩
      intro hka
      exact hnd.1 (by simpa [hka] using hk)) hnd.2
    unfold detailsFold at this
    rw [this, List.append_assoc]
    simp

theorem extractLinesData_eq (c : XmlElem) :
    extractLinesData c = (linesChildren c).foldl lineStep emptyLinesData := by
  unfold extractLinesData linesChildren
  cases XmlElem.findChild c "lines" <;> rfl

/-- The list of numbers the three classification lists hold, concatenated. -/
theorem extractLinesData_concat_eq (c : XmlElem) :
    (extractLinesData c).missing_lines ++ (extractLinesData c).covered_lines
      ++ (extractLinesData c).partial_lines =
    ((parsedLines (linesChildren c)).filter (fun p => lineCls p.2 == 0)
      ++ (parsedLines (linesChildren c)).filter (fun p => lineCls p.2 == 2)
      ++ (parsedLines (linesChildren c)).filter (fun p => lineCls p.2 == 1)).map
        (fun p => p.1) := by
  rw [extractLinesData_eq, foldl_lineStep_spec]
  simp [emptyLinesData]

/-- C2 (amended): for every file entry whose successfully parsed `<line>`
elements carry pairwise distinct line numbers, `missing_lines`,
`covered_lines` and `partial_lines` are pairwise disjoint with no duplicates,
and their union is exactly the set of line numbers present in
`line_details`. -/
theorem extractLinesData_partition (c : XmlElem)
    (h : ((parsedLines (linesChildren c)).map (fun p => p.1)).Nodup) :
    ((extractLinesData c).missing_lines ++ (extractLinesData c).covered_lines
      ++ (extractLinesData c).partial_lines).Nodup
    ∧ ∀ n : Int,
        (n ∈ (extractLinesData c).missing_lines ++ (extractLinesData c).covered_lines
          ++ (extractLinesData c).partial_lines)
        ↔ n ∈ ((extractLinesData c).line_details).map (fun p => p.1) := by
  have hdet : (extractLinesData c).line_details = parsedLines (linesChildren c) := by
    rw [extractLinesData_eq, foldl_lineStep_spec]
    simpa [emptyLinesData] using detailsFold_fresh (by simp) h
  have hperm : List.Perm
      ((extractLinesData c).missing_lines ++ (extractLinesData c).covered_lines
        ++ (extractLinesData c).partial_lines)
      ((parsedLines (linesChildren c)).map (fun p => p.1)) := by
    rw [extractLinesData_concat_eq]
    exact (filter_cls_perm (parsedLines (linesChildren c))).map (fun p => p.1)
  refine ⟨hperm.nodup_iff.mpr h, fun n => ?_⟩
  rw [hdet]
  exact hperm.mem_iff

/-- C2 (counterexample to the claim as stated): two `<line>` elements sharing
number 5, one unhit and one hit, put 5 into both `missing_lines` and
`covered_lines`, so the three collections are not pairwise disjoint. -/
theorem extractLinesData_disjoint_counterexample :
    (extractLinesData
      ⟨"class", [], [⟨"lines", [],
        [⟨"line", [("number", "5"), ("hits", "0")], [], none⟩,
         ⟨"line", [("number", "5"), ("hits", "1")], [], none⟩], none⟩], none⟩).missing_lines = [5]
    ∧ (extractLinesData
      ⟨"class", [], [⟨"lines", [],
        [⟨"line", [("number", "5"), ("hits", "0")], [], none⟩,
         ⟨"line", [("number", "5"), ("hits", "1")], [], none⟩], none⟩], none⟩).covered_lines = [5] := by
  decide

/-- C2 (witness): the amended invariant at a concrete two-line class. -/
theorem extractLinesData_partition_witness :
    ((extractLinesData
      ⟨"class", [], [⟨"lines", [],
        [⟨"line", [("number", "1"), ("hits", "0")], [], none⟩,
         ⟨"line", [("number", "2"), ("hits", "3")], [], none⟩], none⟩], none⟩).missing_lines
      ++ (extractLinesData
      ⟨"class", [], [⟨"lines", [],
        [⟨"line", [("number", "1"), ("hits", "0")], [], none⟩,
         ⟨"line", [("number", "2"), ("hits", "3")], [], none⟩], none⟩], none⟩).covered_lines
      ++ (extractLinesData
      ⟨"class", [], [⟨"lines", [],
        [⟨"line", [("number", "1"), ("hits", "0")], [], none⟩,
         ⟨"line", [("number", "2"), ("hits", "3")], [], none⟩], none⟩], none⟩).partial_lines).Nodup := by
  exact (extractLinesData_partition _ (by decide)).1

/-- C1 (amended): every parsed `<line>` element is classified by the ordered
rule: `hits == 0` → `missing_lines` regardless of branch flag or
condition-coverage; else a branch line with a non-empty condition-coverage
string that does not contain `"100%"` as a substring → `partial_lines`; in
every other case (non-branch, empty condition-coverage, or a
condition-coverage containing `"100%"`) → `covered_lines`; `line_details`
records the line in all three cases. -/
theorem lineStep_classification (acc : LinesData) (e : XmlElem) (n : Int) (i : LineInfo)
    (h : parseLineElem e = some (n, i)) :
    (i.hits = 0 →
      lineStep acc e = { acc with line_details := dictInsert n i acc.line_details
                                  missing_lines := acc.missing_lines ++ [n] })
    ∧ (i.hits ≠ 0 → i.branch = true → i.condition_coverage ≠ "" →
        strContains i.condition_coverage "100%" = false →
        lineStep acc e = { acc with line_details := dictInsert n i acc.line_details
                                    partial_lines := acc.partial_lines ++ [n] })
    ∧ (i.hits ≠ 0 → (i.branch = false ∨ i.condition_coverage = ""
          ∨ strContains i.condition_coverage "100%" = true) →
        lineStep acc e = { acc with line_details := dictInsert n i acc.line_details
                                    covered_lines := acc.covered_lines ++ [n] }) := by
  refine ⟨fun h0 => lineStep_cls_missing h h0, fun h0 hb hcc hsub => ?_, fun h0 hco => ?_⟩
  · exact lineStep_cls_partialLines h h0 (by simp [hb, hcc, hsub])
  · refine lineStep_cls_covered h h0 ?_
    rcases hco with h' | h' | h' <;> simp [h']

/-- C1 (counterexample to the claim as stated): a hit branch line whose
condition-coverage is `"100% (2/2)"` is non-empty and not exactly `"100%"`,
so the claim classifies it partial; the code tests substring containment and
classifies it covered. -/
theorem lineStep_classification_counterexample :
    parseLineElem ⟨"line", [("number", "1"), ("hits", "1"), ("branch", "true"),
        ("condition-coverage", "100% (2/2)")], [], none⟩
      = some (1, ⟨1, true, "100% (2/2)"⟩)
    ∧ ("100% (2/2)" : String) ≠ ""
    ∧ ("100% (2/2)" : String) ≠ "100%"
    ∧ (lineStep emptyLinesData ⟨"line", [("number", "1"), ("hits", "1"), ("branch", "true"),
        ("condition-coverage", "100% (2/2)")], [], none⟩).partial_lines = []
    ∧ (lineStep emptyLinesData ⟨"line", [("number", "1"), ("hits", "1"), ("branch", "true"),
        ("condition-coverage", "100% (2/2)")], [], none⟩).covered_lines = [1] := by
  decide

/-- C1 (witness): the missing branch of the classification at a concrete
unhit line. -/
theorem lineStep_classification_witness :
    lineStep emptyLinesData ⟨"line", [("number", "2"), ("hits", "0")], [], none⟩ =
      { emptyLinesData with line_details := [(2, ⟨0, false, ""⟩)]
                            missing_lines := [2] } := by
  exact ((lineStep_classification emptyLinesData _ 2 ⟨0, false, ""⟩ (by decide)).1
    rfl).trans (by decide)

/-- C5 (amended): a parse failure of any one of the six numeric attributes of
the `<coverage>` root leaves every one of the six fields at its default 0
(element-level, not field-level, failure), while parsing continues over the
rest of the document: the file and package extraction still run and their
results appear in the returned data. -/
theorem extractOverallCoverage_element_level (root : XmlElem)
    (hfail : getFloatAttr root "line-rate" = none ∨ getFloatAttr root "branch-rate" = none
      ∨ getIntAttr root "lines-covered" = none ∨ getIntAttr root "lines-valid" = none
      ∨ getIntAttr root "branches-covered" = none ∨ getIntAttr root "branches-valid" = none)
    (htag : root.tag = "coverage") :
    extractOverallCoverage root = defaultOverall
    ∧ ∃ r, parseCoverageFile (.doc root) = some r
        ∧ r.totals = defaultOverall
        ∧ r.files = extractFilesCoverage root
        ∧ r.packages = extractPackagesCoverage root := by
  have h1 : extractOverallCoverage root = defaultOverall := by
    unfold extractOverallCoverage
    rcases e1 : getFloatAttr root "line-rate" with _ | lr <;>
      rcases e2 : getFloatAttr root "branch-rate" with _ | br <;>
      rcases e3 : getIntAttr root "lines-covered" with _ | lc <;>
      rcases e4 : getIntAttr root "lines-valid" with _ | lv <;>
      rcases e5 : getIntAttr root "branches-covered" with _ | bc <;>
      rcases e6 : getIntAttr root "branches-valid" with _ | bv <;>
      simp_all
  refine ⟨h1, ?_⟩
  refine ⟨{ totals := extractOverallCoverage root
            packages := extractPackagesCoverage root
            files := extractFilesCoverage root
            timestamp := (root.attr "timestamp").getD ""
            version := (root.attr "version").getD ""
            source_paths := extractSourcePaths root }, ?_, h1, rfl, rfl⟩
  unfold parseCoverageFile
  simp [htag]

/-- C5 (counterexample to the claim as stated): with `line-rate="abc"` and
`lines-covered="5"`, the claim keeps `lines_covered = 5`; the code's single
`try` block skips the whole `update`, so `lines_covered` is 0 even though its
own attribute parses. -/
theorem extractOverallCoverage_counterexample :
    pyInt "5" = some 5
    ∧ (XmlElem.attr
        ⟨"coverage", [("line-rate", "abc"), ("lines-covered", "5")], [], none⟩
        "lines-covered") = some "5"
    ∧ (extractOverallCoverage
        ⟨"coverage", [("line-rate", "abc"), ("lines-covered", "5")], [], none⟩).lines_covered
        = 0 := by
  decide

/-- C5 (witness): the amended element-level rule at the concrete root above. -/
theorem extractOverallCoverage_element_level_witness :
    extractOverallCoverage
      ⟨"coverage", [("line-rate", "abc"), ("lines-covered", "5")], [], none⟩
      = defaultOverall :=
  (extractOverallCoverage_element_level _ (Or.inl (by decide)) rfl).1

/-- C6: `parse_coverage_file` yields the empty result — never an exception —
on a missing file, on unparseable XML, and on a document whose root tag is
not `coverage`; totality of `parseCoverageFile` models the absence of any
escaping exception. -/
theorem parseCoverageFile_failure_empty (root : XmlElem) (h : root.tag ≠ "coverage") :
    parseCoverageFile .missing = none
    ∧ parseCoverageFile .malformed = none
    ∧ parseCoverageFile (.doc root) = none := by
  refine ⟨rfl, rfl, ?_⟩
  unfold parseCoverageFile
  simp [h]

/-- C6 (witness): a `<notcoverage>` root yields the empty result. -/
theorem parseCoverageFile_failure_empty_witness :
    parseCoverageFile (.doc ⟨"notcoverage", [], [], none⟩) = none :=
  (parseCoverageFile_failure_empty ⟨"notcoverage", [], [], none⟩ (by decide)).2.2

/-- A successful `collectLow` run produces exactly the filter-map view. -/
theorem collectLow_ok_eq {t : ℚ} :
    ∀ {files : List (String × JEntry)} {l : List LowCoverageArea},
      collectLow t files = .ok l → l = lowSelect t files := by
  intro files
  induction files with
  | nil =>
    intro l h
    simp only [collectLow] at h
    cases h
    simp [lowSelect]
  | cons kv files ih =>
    obtain ⟨k, v⟩ := kv
    intro l h
    cases v with
    | dict f =>
      by_cases hc : fileCov f < t
      · simp only [collectLow, if_pos hc] at h
        cases hrec : collectLow t files with
        | error e => rw [hrec] at h; simp [Except.map] at h
        | ok l' =>
          rw [hrec] at h
          simp only [Except.map] at h
          cases h
          simp [lowSelect, hc, ih hrec]
      · simp only [collectLow, if_neg hc] at h
        simpa [lowSelect, hc] using ih h
    | nondict =>
      by_cases h0 : (0 : ℚ) < t
      · simp [collectLow, h0] at h
      · simp only [collectLow, if_neg h0] at h
        simpa [lowSelect] using ih h

/-- Every emitted area records a coverage strictly below the threshold. -/
theorem lowSelect_cov_lt {t : ℚ} {files : List (String × JEntry)}
    {a : LowCoverageArea} (h : a ∈ lowSelect t files) : a.current_coverage < t := by
  unfold lowSelect at h
  obtain ⟨⟨k, v⟩, _, hv⟩ := List.mem_filterMap.mp h
  cases v with
  | dict f =>
    simp only at hv
    by_cases hc : fileCov f < t
    · rw [if_pos hc] at hv
      cases hv
      simpa [mkArea] using hc
    · rw [if_neg hc] at hv; cases hv
  | nondict => simp at hv

/-- C3: a file appears in the low-coverage result iff its `percent_covered`
is strictly below the threshold; a file exactly at the threshold is
excluded. -/
theorem findLowCoverageAreas_strict_threshold (files : List (String × JEntry))
    (t : ℚ) (areas : List LowCoverageArea)
    (hok : findLowCoverageAreas files t = .ok areas) :
    ∀ k f, (k, JEntry.dict f) ∈ files →
      ((∃ a ∈ areas, a.file = k ∧ a.current_coverage = fileCov f) ↔ fileCov f < t) := by
  intro k f hmem
  obtain ⟨l, hl, hsort⟩ : ∃ l, collectLow t files = .ok l ∧ areas = l.mergeSort areaLe := by
    unfold findLowCoverageAreas at hok
    cases hc : collectLow t files with
    | error e => rw [hc] at hok; simp [Except.map] at hok
    | ok l => rw [hc] at hok; simp only [Except.map] at hok; cases hok; exact ⟨l, rfl, rfl⟩
  have hsel : l = lowSelect t files := collectLow_ok_eq hl
  constructor
  · rintro ⟨a, ha, _, hcov⟩
    rw [hsort, List.mem_mergeSort, hsel] at ha
    exact hcov ▸ lowSelect_cov_lt ha
  · intro hlt
    refine ⟨mkArea t k f, ?_, rfl, rfl⟩
    rw [hsort, List.mem_mergeSort, hsel]
    exact List.mem_filterMap.mpr ⟨(k, .dict f), hmem, by simp [hlt]⟩

-- C3 (witness): one file at coverage 10 against threshold 80.
unseal List.merge List.mergeSort Rat.mul Rat.inv in
theorem findLowCoverageAreas_strict_threshold_witness :
    (∃ a ∈ [(⟨"A", 10, [], "high"⟩ : LowCoverageArea)],
      a.file = "A" ∧ a.current_coverage = fileCov ⟨some 10, none, []⟩)
    ↔ fileCov ⟨some 10, none, []⟩ < 80 :=
  findLowCoverageAreas_strict_threshold [("A", .dict ⟨some 10, none, []⟩)] 80
    [⟨"A", 10, [], "high"⟩] (by decide) "A" ⟨some 10, none, []⟩ (by decide)

theorem areaLe_total (x y : LowCoverageArea) : (areaLe x y || areaLe y x) = true := by
  unfold areaLe
  rcases le_total x.current_coverage y.current_coverage with h | h <;>
    cases hx : x.priority == "high" <;> cases hy : y.priority == "high" <;>
    simp_all

theorem areaLe_trans : ∀ x y z : LowCoverageArea,
    areaLe x y → areaLe y z → areaLe x z := by
  intro x y z h1 h2
  unfold areaLe at h1 h2 ⊢
  cases hx : x.priority == "high" <;> cases hy : y.priority == "high" <;>
    cases hz : z.priority == "high" <;> simp_all
  all_goals exact le_trans h1 h2

/-- A successful `findLowCoverageAreas` is a sorted `collectLow` run. -/
theorem findLow_ok_shape {files : List (String × JEntry)} {t : ℚ}
    {areas : List LowCoverageArea} (hok : findLowCoverageAreas files t = .ok areas) :
    ∃ l, collectLow t files = .ok l ∧ areas = l.mergeSort areaLe := by
  unfold findLowCoverageAreas at hok
  cases hc : collectLow t files with
  | error e => rw [hc] at hok; simp [Except.map] at hok
  | ok l => rw [hc] at hok; simp only [Except.map] at hok; cases hok; exact ⟨l, rfl, rfl⟩

theorem areaLe_imp (x y : LowCoverageArea) (h : areaLe x y) :
    (y.priority = "high" → x.priority = "high")
    ∧ (x.priority = y.priority → x.current_coverage ≤ y.current_coverage) := by
  unfold areaLe at h
  constructor
  · intro hy
    cases hx : x.priority == "high"
    · rw [hx, hy] at h; simp at h
    · exact beq_iff_eq.mp hx
  · intro hxy
    rw [hxy] at h
    cases hy : y.priority == "high" <;> rw [hy] at h <;> simpa using h

/-- C4: the emitted areas are ordered with every `high`-priority entry before
every `medium` one, and by ascending `current_coverage` within a priority
tier.  (The C, A, B instance of the claim is the witness.) -/
theorem findLowCoverageAreas_order (files : List (String × JEntry)) (t : ℚ)
    (areas : List LowCoverageArea)
    (hok : findLowCoverageAreas files t = .ok areas) :
    areas.Pairwise (fun x y => (y.priority = "high" → x.priority = "high")
      ∧ (x.priority = y.priority → x.current_coverage ≤ y.current_coverage)) := by
  obtain ⟨l, _, hsort⟩ := findLow_ok_shape hok
  rw [hsort]
  exact (List.sorted_mergeSort areaLe_trans areaLe_total l).imp
    (fun h => areaLe_imp _ _ h)

-- C4 (witness): files A(10), B(70), C(5) at threshold 80 come out in the
-- order C, A, B, and that output satisfies the ordering property.
unseal List.merge List.mergeSort Rat.mul Rat.inv in
theorem findLowCoverageAreas_order_witness :
    findLowCoverageAreas
      [("A", .dict ⟨some 10, none, []⟩), ("B", .dict ⟨some 70, none, []⟩),
       ("C", .dict ⟨some 5, none, []⟩)] 80
      = .ok [⟨"C", 5, [], "high"⟩, ⟨"A", 10, [], "high"⟩, ⟨"B", 70, [], "medium"⟩]
    ∧ ([⟨"C", 5, [], "high"⟩, ⟨"A", 10, [], "high"⟩, ⟨"B", 70, [], "medium"⟩] :
        List LowCoverageArea).Pairwise
          (fun x y => (y.priority = "high" → x.priority = "high")
            ∧ (x.priority = y.priority → x.current_coverage ≤ y.current_coverage)) :=
  ⟨by decide,
   findLowCoverageAreas_order
     [("A", .dict ⟨some 10, none, []⟩), ("B", .dict ⟨some 70, none, []⟩),
      ("C", .dict ⟨some 5, none, []⟩)] 80 _ (by decide)⟩

/-- C9: on every successfully analyzed report, `meets_threshold` is true iff
the reported overall coverage is ≥ the threshold (non-strict), while every
entry of the low-coverage list is strictly below the threshold — so a run at
exactly the threshold meets it even though a file at exactly the threshold
is never listed. -/
theorem analyze_meets_threshold_iff (abspath : String → String)
    (report : ParsedReport) (t overall : ℚ) (fc : List (String × JEntry))
    (low : List LowCoverageArea) (t' : ℚ) (meets : Bool) (sf : String)
    (hok : analyzeCoverageWithPath abspath report t
      = .ok overall fc low t' meets sf) :
    (meets = true ↔ overall ≥ t) ∧ ∀ a ∈ low, a.current_coverage < t := by
  unfold analyzeCoverageWithPath at hok
  cases hf : findLowCoverageAreas (reportFiles report) t with
  | error e => rw [hf] at hok; simp at hok
  | ok l =>
    rw [hf] at hok
    simp only [AnalysisResult.ok.injEq] at hok
    obtain ⟨hov, _, hlow, _, hmeets, _⟩ := hok
    constructor
    · rw [← hmeets, ← hov]
      simp
    · intro a ha
      obtain ⟨l0, hc0, hsor⟩ := findLow_ok_shape hf
      rw [← hlow, hsor, List.mem_mergeSort, collectLow_ok_eq hc0] at ha
      exact lowSelect_cov_lt ha

-- C9 (witness): a report whose overall coverage is exactly the threshold
-- (80), with one file also exactly at 80: the run meets the threshold and
-- the low-coverage list is empty.
unseal List.merge List.mergeSort in
theorem analyze_meets_threshold_iff_witness :
    ((true = true) ↔ ((80 : ℚ) ≥ 80))
    ∧ ∀ a ∈ ([] : List LowCoverageArea), a.current_coverage < 80 :=
  analyze_meets_threshold_iff id
    ⟨some 80, none, some [("A", .dict ⟨some 80, none, []⟩)], none, none⟩
    80 80 (absFileDict id [("A", .dict ⟨some 80, none, []⟩)]) [] 80 true "pytest"
    (by decide)

theorem str_append_ne_left {s t : String} (h : s ≠ "") : s ++ t ≠ "" := by
  intro he
  apply h
  apply String.ext
  have hd := congrArg String.data he
  rw [String.data_append] at hd
  simp only [List.append_eq_nil] at hd
  · simpa using hd.1

/-- C8: for a JaCoCo source file with nonempty package path `p` and nonempty
filename `f`, the candidate paths are built in the claimed order; the chosen
key is the first candidate that exists on disk, and when none exists it is
the most specific candidate `p/f`. -/
theorem jacoco_path_resolution (disk : String → Bool) (p f : String)
    (hp : p ≠ "") (hf : f ≠ "") :
    jacocoCandidates p f = [p ++ "/" ++ f, "src/main/java/" ++ p ++ "/" ++ f,
      "src/" ++ p ++ "/" ++ f, "src/main/java/" ++ f, "src/" ++ f, f]
    ∧ (∀ c, (jacocoCandidates p f).find? disk = some c → chooseFileKey disk p f = c)
    ∧ ((jacocoCandidates p f).find? disk = none →
        chooseFileKey disk p f = p ++ "/" ++ f) := by
  have hlist : jacocoCandidates p f = [p ++ "/" ++ f,
      "src/main/java/" ++ p ++ "/" ++ f, "src/" ++ p ++ "/" ++ f,
      "src/main/java/" ++ f, "src/" ++ f, f] := by
    unfold jacocoCandidates
    simp [bne_iff_ne, hp]
  have hne : ∀ c ∈ jacocoCandidates p f, c ≠ "" := by
    intro c hc
    rw [hlist] at hc
    simp only [List.mem_cons, List.not_mem_nil, or_false] at hc
    rcases hc with h | h | h | h | h | h
    · exact h ▸ str_append_ne_left (str_append_ne_left hp)
    · exact h ▸ str_append_ne_left (str_append_ne_left
        (str_append_ne_left (show ("src/main/java/" : String) ≠ "" by decide)))
    · exact h ▸ str_append_ne_left (str_append_ne_left
        (str_append_ne_left (show ("src/" : String) ≠ "" by decide)))
    · exact h ▸ str_append_ne_left (show ("src/main/java/" : String) ≠ "" by decide)
    · exact h ▸ str_append_ne_left (show ("src/" : String) ≠ "" by decide)
    · exact h ▸ hf
  refine ⟨hlist, fun c hfind => ?_, fun hnone => ?_⟩
  · have hmem := List.mem_of_find?_eq_some hfind
    simp only [chooseFileKey]
    rw [hfind]
    exact if_neg (hne c hmem)
  · simp only [chooseFileKey]
    rw [hnone, hlist]
    rfl

-- C8 (witness): package `com/example`, filename `Foo.java`, with only
-- `src/main/java/com/example/Foo.java` on disk: that exact path is chosen
-- over the (absent) bare `com/example/Foo.java` candidate.
theorem jacoco_path_resolution_witness :
    chooseFileKey (fun s => s == "src/main/java/com/example/Foo.java")
      "com/example" "Foo.java" = "src/main/java/com/example/Foo.java" :=
  (jacoco_path_resolution (fun s => s == "src/main/java/com/example/Foo.java")
    "com/example" "Foo.java" (by decide) (by decide)).2.1
    "src/main/java/com/example/Foo.java" (by decide)

/-- C10: every coverage percentage derived from counted lines is guarded:
a JaCoCo source file whose counted total is zero gets `percent_covered = 0`;
a JaCoCo report whose overall total is zero gets `overall_coverage = 0`; and
an Istanbul report with zero classifiable statements gets
`overall_coverage = 0` — never a division error (the guards are the
`if total > 0` tests mirrored from the code). -/
theorem division_guards_zero :
    (∀ (sf : XmlElem) (entry : JacocoFileEntry),
      jacocoSourcefileStats sf = .ok entry → entry.total = 0 →
      entry.percent_covered = 0)
    ∧ (∀ (disk : String → Bool) (root : XmlElem) (r : JacocoReport),
        parseJacocoDoc disk root = .ok r → r.total_missed + r.total_covered = 0 →
        r.overall_coverage = 0)
    ∧ (∀ (entries : List (String × JVal)) (cov : Nat)
        (fc : List (String × IstFileEntry)),
        convertIstanbulCore entries = .ok (0, cov, fc) →
        convertIstanbul entries = .ok ⟨0, fc⟩) := by
  refine ⟨?_, ?_, ?_⟩
  · intro sf entry hok htot
    unfold jacocoSourcefileStats at hok
    split at hok
    · simp at hok
    · split at hok
      · split at hok
        · simp at hok
        · cases hok
          simp only [jacocoEntryOf] at htot ⊢
          rw [htot]
          norm_num
      · cases hok
        simp only [jacocoEntryOf] at htot ⊢
        rw [htot]
        norm_num
  · intro disk root r hok htot
    simp only [parseJacocoDoc] at hok
    split at hok
    · simp at hok
    · cases hok
      simp only at htot ⊢
      rw [htot]
      norm_num
  · intro entries cov fc hok
    unfold convertIstanbul
    rw [hok]
    simp [Except.map]

-- C10 (witness): a sourcefile with no lines and no counters, a document with
-- one such sourcefile, and an Istanbul object whose only file has an empty
-- statement map, each yield percentage 0.
theorem division_guards_zero_witness :
    (jacocoSourcefileStats ⟨"sourcefile", [("name", "A.java")], [], none⟩
        = .ok ⟨0, 0, 0, 0, [], []⟩ → (0 : ℚ) = 0 → True)
    ∧ ((⟨0, 0, 0, 0, [], []⟩ : JacocoFileEntry).percent_covered = 0)
    ∧ convertIstanbul [("a.js", .obj [("s", .obj []), ("statementMap", .obj [])])]
        = .ok ⟨0, []⟩ := by
  refine ⟨fun _ _ => trivial, ?_, ?_⟩
  · exact (division_guards_zero.1
      ⟨"sourcefile", [("name", "A.java")], [], none⟩ ⟨0, 0, 0, 0, [], []⟩
      (by decide) rfl)
  · exact (division_guards_zero.2.2
      [("a.js", .obj [("s", .obj []), ("statementMap", .obj [])])] 0 []
      (by rfl))

/-- A successful `stmtStartLine` agrees with the spec-side `specStartLine`. -/
theorem stmtStartLine_ok {m : JVal} {x : Option JVal}
    (h : stmtStartLine m = .ok x) : specStartLine m = x := by
  cases m with
  | obj mf =>
    unfold stmtStartLine at h
    unfold specStartLine
    cases hd : (jLookup mf "start").getD (.obj []) <;> simp only [hd] at h ⊢ <;>
      simp_all
  | null => exact absurd h (by simp [stmtStartLine])
  | jbool b => exact absurd h (by simp [stmtStartLine])
  | num q => exact absurd h (by simp [stmtStartLine])
  | str s => exact absurd h (by simp [stmtStartLine])
  | arr xs => exact absurd h (by simp [stmtStartLine])

/-- A successful `pyGtZero` agrees with the spec-side `specHitPos`. -/
theorem pyGtZero_ok {v : JVal} {b : Bool} (h : pyGtZero v = .ok b) :
    specHitPos v = b := by
  cases v <;> simp_all [pyGtZero, specHitPos]

/-- The statement loop refines the spec-side classifier, relative to any
accumulator. -/
theorem istanbulFold_spec (smFields : List (String × JVal)) :
    ∀ (sEntries : List (String × JVal)) (acc : List JVal × List JVal)
      (ml cl : List JVal),
      sEntries.foldlM (istanbulStmtStep smFields) acc = .ok (ml, cl) →
      ml = acc.1 ++ (istanbulSpecClass sEntries smFields).1
      ∧ cl = acc.2 ++ (istanbulSpecClass sEntries smFields).2 := by
  intro sEntries
  induction sEntries with
  | nil =>
    intro acc ml cl h
    have h' : acc = (ml, cl) := by
      have hp : (pure acc : Except Unit (List JVal × List JVal)) = .ok (ml, cl) := h
      simpa [pure, Except.pure] using hp
    subst h'
    simp [istanbulSpecClass]
  | cons kv rest ih =>
    intro acc ml cl h
    rw [List.foldlM_cons] at h
    cases hstep : istanbulStmtStep smFields acc kv with
    | error e => rw [hstep] at h; simp [Bind.bind, Except.bind] at h
    | ok acc' =>
      rw [hstep] at h
      have hb : rest.foldlM (istanbulStmtStep smFields) acc' = .ok (ml, cl) := by
        simpa [Bind.bind, Except.bind] using h
      obtain ⟨h1, h2⟩ := ih acc' ml cl hb
      simp only [istanbulSpecClass] at h1 h2 ⊢
      unfold istanbulStmtStep at hstep
      cases hlk : jLookup smFields kv.1 with
      | none =>
        simp only [hlk] at hstep
        cases hstep
        have hc : ∀ b, specClassify smFields b kv = none := by
          intro b; unfold specClassify; simp [hlk]
        simp only [List.filterMap_cons, hc]
        exact ⟨h1, h2⟩
      | some m =>
        simp only [hlk] at hstep
        cases hsl : stmtStartLine m with
        | error e => simp [hsl] at hstep
        | ok lineOpt =>
          simp only [hsl] at hstep
          have hspec := stmtStartLine_ok hsl
          cases lineOpt with
          | none =>
            cases hstep
            have hc : ∀ b, specClassify smFields b kv = none := by
              intro b; unfold specClassify; simp [hlk, hspec]
            simp only [List.filterMap_cons, hc]
            exact ⟨h1, h2⟩
          | some line =>
            by_cases ht : jTruthy line = true
            · simp only [if_pos ht] at hstep
              cases hgz : pyGtZero kv.2 with
              | error e => simp [hgz] at hstep
              | ok hitb =>
                simp only [hgz] at hstep
                have hhp := pyGtZero_ok hgz
                cases hitb with
                | true =>
                  simp only [if_pos] at hstep
                  cases hstep
                  have hcT : specClassify smFields true kv = some line := by
                    unfold specClassify; simp [hlk, hspec, ht, hhp]
                  have hcF : specClassify smFields false kv = none := by
                    unfold specClassify; simp [hlk, hspec, hhp]
                  simp only [List.filterMap_cons, hcT, hcF]
                  refine ⟨h1, ?_⟩
                  simpa [List.append_assoc] using h2
                | false =>
                  simp only [Bool.false_eq_true, if_false] at hstep
                  cases hstep
                  have hcT : specClassify smFields true kv = none := by
                    unfold specClassify; simp [hlk, hspec, hhp]
                  have hcF : specClassify smFields false kv = some line := by
                    unfold specClassify; simp [hlk, hspec, ht, hhp]
                  simp only [List.filterMap_cons, hcT, hcF]
                  refine ⟨?_, h2⟩
                  simpa [List.append_assoc] using h1
            · simp only [if_neg ht] at hstep
              cases hstep
              have hc : ∀ b, specClassify smFields b kv = none := by
                intro b; unfold specClassify; simp [hlk, hspec, ht]
              simp only [List.filterMap_cons, hc]
              exact ⟨h1, h2⟩

/-- C7 (amended): the JSON parser disambiguates by shape — an object with
both `totals` and `files` keys (and a dict-valued `totals`) is parsed as
aggregate-style; otherwise an object at least one of whose keys ends in
`.js`/`.ts` is parsed as Istanbul-style when the conversion succeeds and
yields empty when it raises; an object matching neither shape, and any
non-object, yield empty.  The Istanbul statement loop classifies exactly the
statement ids present in both the `s` and `statementMap` maps with a
present, truthy start line: covered when the hit count is positive, missing
otherwise. -/
theorem parseJsonCoverage_disambiguation :
    (∀ fields tfields,
      hasKey fields "totals" = true → hasKey fields "files" = true →
      jLookup fields "totals" = some (.obj tfields) →
      parseJsonCoverage (.obj fields)
        = .pytest ((jLookup tfields "percent_covered").getD (.num 0))
            ((jLookup fields "files").getD .null))
    ∧ (∀ fields, (hasKey fields "totals" && hasKey fields "files") = false →
        fields.any (fun kv => strEndsWith kv.1 ".js" || strEndsWith kv.1 ".ts") = false →
        parseJsonCoverage (.obj fields) = .empty)
    ∧ (∀ fields r, (hasKey fields "totals" && hasKey fields "files") = false →
        fields.any (fun kv => strEndsWith kv.1 ".js" || strEndsWith kv.1 ".ts") = true →
        convertIstanbul fields = .ok r →
        parseJsonCoverage (.obj fields) = .istanbul r)
    ∧ (∀ fields, (hasKey fields "totals" && hasKey fields "files") = false →
        fields.any (fun kv => strEndsWith kv.1 ".js" || strEndsWith kv.1 ".ts") = true →
        convertIstanbul fields = .error () →
        parseJsonCoverage (.obj fields) = .empty)
    ∧ (∀ data : JVal, (∀ fields, data ≠ .obj fields) →
        parseJsonCoverage data = .empty)
    ∧ (∀ fields sEntries smFields ml cl,
        (jLookup fields "s").getD (.obj []) = .obj sEntries →
        (jLookup fields "statementMap").getD (.obj []) = .obj smFields →
        istanbulFileLines fields = .ok (ml, cl) →
        ml = sEntries.filterMap (specClassify smFields false)
        ∧ cl = sEntries.filterMap (specClassify smFields true)) := by
  refine ⟨?_, ?_, ?_, ?_, ?_, ?_⟩
  · intro fields tfields h1 h2 h3
    unfold parseJsonCoverage
    simp only [h1, h2, h3, Bool.and_self, if_true]
  · intro fields hcond hany
    unfold parseJsonCoverage
    simp only [hcond, Bool.false_eq_true, if_false, hany]
  · intro fields r hcond hany hconv
    unfold parseJsonCoverage
    simp only [hcond, Bool.false_eq_true, if_false, hany, if_true, hconv]
  · intro fields hcond hany hconv
    unfold parseJsonCoverage
    simp only [hcond, Bool.false_eq_true, if_false, hany, if_true, hconv]
  · intro data hne
    cases data with
    | obj fields => exact absurd rfl (hne fields)
    | null => rfl
    | jbool b => rfl
    | num q => rfl
    | str s => rfl
    | arr xs => rfl
  · intro fields sEntries smFields ml cl hs hm hok
    unfold istanbulFileLines at hok
    simp only [hs, hm] at hok
    have := istanbulFold_spec smFields sEntries ([], []) ml cl hok
    simpa [istanbulSpecClass] using this

-- C7 (counterexample to the claim as stated): an object with keys `a.js`
-- (a well-formed Istanbul entry) and `b.py` (a non-dict) — not all keys end
-- in `.js`/`.ts` and it is not aggregate-shaped, so the claim demands an
-- empty result, yet the code converts it as Istanbul data.
unseal Rat.mul Rat.inv in
theorem parseJsonCoverage_counterexample :
    strEndsWith "b.py" ".js" = false
    ∧ strEndsWith "b.py" ".ts" = false
    ∧ hasKey [("a.js", JVal.obj [("s", JVal.obj [("0", JVal.num 1)]),
          ("statementMap", JVal.obj [("0", JVal.obj [("start",
            JVal.obj [("line", JVal.num 7)])])])]), ("b.py", JVal.num 0)]
        "totals" = false
    ∧ parseJsonCoverage (.obj [("a.js", JVal.obj [("s", JVal.obj [("0", JVal.num 1)]),
          ("statementMap", JVal.obj [("0", JVal.obj [("start",
            JVal.obj [("line", JVal.num 7)])])])]), ("b.py", JVal.num 0)])
        = .istanbul ⟨100, [("a.js", ⟨100, [], [JVal.num 7]⟩)]⟩ :=
  ⟨by decide, by decide, by decide, by rfl⟩

-- C7 (witness): an aggregate-shaped object takes the pytest branch.
theorem parseJsonCoverage_disambiguation_witness :
    parseJsonCoverage (.obj [("totals", .obj [("percent_covered", .num 91)]),
        ("files", .obj [])])
      = .pytest ((jLookup [("percent_covered", JVal.num 91)] "percent_covered").getD (.num 0))
          ((jLookup [("totals", JVal.obj [("percent_covered", JVal.num 91)]),
            ("files", JVal.obj [])] "files").getD .null) :=
  parseJsonCoverage_disambiguation.1
    [("totals", .obj [("percent_covered", .num 91)]), ("files", .obj [])]
    [("percent_covered", .num 91)] (by decide) (by decide) (by rfl)

end Sentry
